import Mathlib

/-!
# mxlog transport (drivers/misc/samsung/scsc/mxlog_transport.c)

A shallow embedding of the firmware-log transport: the interrupt callback,
the fault flag, the registration call, the start/stop/init/release lifecycle
and the worker thread that drains length-prefixed frames from the stream.

Conventions of the embedding.

* Machine integers are `Nat`/`Int`; the `u8` and `u32` out-parameters of the
  header decoder are reduced `% 256` and `% 2 ^ 32` where the worker reads them.
* Calls into collaborators that are not part of this file of the driver
  (the hardware interrupt clear, `wake_up_interruptible`, `kfree`, `complete`,
  `kthread_stop`, the payload callback, the stream reads) are recorded, in
  program order, in a trace of `Event`s.
* The stream is a parameter: a state type `σ` with a `read` and a `release`.
* The worker shares the transport with other contexts.  Their actions
  (registration, fault report, interrupt) are a schedule of `env_action`s that
  the worker's loops apply at the points where the worker does not hold the
  transport lock: while it sleeps, and at the top of each drain iteration.
* `kmalloc` is taken to succeed; the initial contents of the scratch buffer and
  of the local `header` variable are parameters.
-/

namespace MxlogTransport

/-! ## Constants -/

/-- The C constant `MXLOG_TRANSPORT_BUF_LENGTH`, `(4 * 1024)`. -/
def MXLOG_TRANSPORT_BUF_LENGTH : Nat := 4 * 1024

/-- The C constant `MXLOG_TRANSPORT_PACKET_SIZE`, `(4)`. -/
def MXLOG_TRANSPORT_PACKET_SIZE : Nat := 4

/-- The value of `sizeof(uint32_t)`. -/
def sizeof_uint32_t : Nat := 4

/-- The local `size_t buf_sz = 4096` of `mxlog_thread_function`. -/
def buf_sz : Nat := 4096

/-- The errno `ETIMEDOUT`. -/
def ETIMEDOUT : Int := 110

/-- The errno `ERESTARTSYS`, returned negated by an interrupted wait. -/
def ERESTARTSYS : Int := 512

/-- The C constant `LOG_THREAD_START_TMO_SEC`, `(3)`. -/
def LOG_THREAD_START_TMO_SEC : Nat := 3

/-- The C constant `LOG_THREAD_STOP_TMO_SEC`, `(3)`. -/
def LOG_THREAD_STOP_TMO_SEC : Nat := 3

/-! ## Data model -/

/-- A `struct task_struct *` as the driver uses it: `NULL`, an `ERR_PTR` carrying
the (negative) error code `PTR_ERR` gives back, or a task. -/
inductive task_ptr where
  | NULL
  | ERR (err : Int)
  | task (id : Nat)
  deriving DecidableEq, Repr

/-- What one call `header_handler_fn(header, &phase, &level, &num_bytes)` leaves:
the `int` it returns and the values of the three out-parameters after the call
(each starts at `0`). -/
structure header_result where
  ret : Int
  phase : Nat
  level : Nat
  num_bytes : Nat
  deriving DecidableEq, Repr

/-- The function-pointer type `mxlog_header_handler`. -/
abbrev mxlog_header_handler := Nat → header_result

/-- The function-pointer type `mxlog_channel_handler`; a registered callback is
identified by its address, and its calls are recorded in the trace. -/
abbrev mxlog_channel_handler := Nat

/-- The fields of `struct mxlog_thread` the driver file accesses. -/
structure mxlog_thread where
  task : task_ptr
  wakeup_flag : Nat
  block_thread : Nat
  completion : Nat
  name : String
  deriving DecidableEq, Repr

/-- The fields of `struct mxlog_transport` the driver file accesses, over a
stream state `σ`. -/
structure mxlog_transport (σ : Type) where
  mx : Nat
  mif_stream : σ
  mxlog_thread : mxlog_thread
  header_handler_fn : Option mxlog_header_handler
  channel_handler_fn : Option mxlog_channel_handler
  channel_handler_data : Nat

/-- Modelled from the spec: the RingStream collaborator (`mif_stream_read`,
`mif_stream_release`, defined outside this file of the driver).
`read s n` is `read(dst_buffer, n_bytes) -> bytes_read`: it gives the bytes
copied to the destination (their number is the return value, `0` on no data)
and the stream after the read. -/
structure mif_stream_ops (σ : Type) where
  read : σ → Nat → List Nat × σ
  release : σ → σ

/-- The destination of a `mif_stream_read`: the local `header` or the scratch
buffer `buf`. -/
inductive read_dst where
  | header
  | buf
  deriving DecidableEq, Repr

/-- Calls into collaborators, in program order. -/
inductive Event where
  | irq_bit_clear (irq : Int)
  | wake_up_interruptible
  | complete
  | kfree
  | mif_stream_read (dst : read_dst) (num_bytes : Nat) (ret : Nat)
  | channel_handler (fn : Option mxlog_channel_handler) (phase : Nat) (buf : List Nat)
      (ret_bytes : Nat) (level : Nat) (data : Nat)
  | kthread_stop (t : task_ptr)
  | mif_stream_release
  deriving DecidableEq, Repr

/-- Bytes copied to the start of a destination: the first `data.length` bytes of
`dst` are replaced, the rest stays. -/
def mem_store (dst data : List Nat) : List Nat :=
  data ++ dst.drop data.length

/-- The `u32` held by four bytes in memory (little-endian, as on the ARM
targets of the driver). -/
def le32 (b : List Nat) : Nat :=
  b.getD 0 0 % 256 + 256 * (b.getD 1 0 % 256) + 65536 * (b.getD 2 0 % 256)
    + 16777216 * (b.getD 3 0 % 256)

/-! ## Fault flag, interrupt callback, registration -/

/-- The C function `mxlog_transport_set_error`. -/
def mxlog_transport_set_error {σ : Type} (t : mxlog_transport σ) : mxlog_transport σ :=
  { t with mxlog_thread := { t.mxlog_thread with block_thread := 1 } }

/-- The C function `input_irq_handler`: the transport after the call and the
collaborator calls it made. -/
def input_irq_handler {σ : Type} (irq : Int) (t : mxlog_transport σ) :
    mxlog_transport σ × List Event :=
  if t.mxlog_thread.task = task_ptr.NULL then
    (t, [Event.irq_bit_clear irq])
  else if t.mxlog_thread.block_thread = 1 then
    (t, [Event.irq_bit_clear irq])
  else
    ({ t with mxlog_thread := { t.mxlog_thread with wakeup_flag := 1 } },
      [Event.irq_bit_clear irq, Event.wake_up_interruptible])

/-- The C function `mxlog_transport_register_channel_handler`. -/
def mxlog_transport_register_channel_handler {σ : Type} (t : mxlog_transport σ)
    (parser : Option mxlog_header_handler) (handler : Option mxlog_channel_handler)
    (data : Nat) : mxlog_transport σ :=
  { t with header_handler_fn := parser,
           channel_handler_fn := handler,
           channel_handler_data := data }

/-! ## The worker -/

/-- The worker thread's view: the shared transport, its locals `header` (four
bytes) and `buf` (the scratch buffer), and the trace so far. -/
structure worker (σ : Type) where
  t : mxlog_transport σ
  header : List Nat
  buf : List Nat
  trace : List Event

/-- An action of another context on the shared transport. -/
inductive env_action where
  | register (parser : Option mxlog_header_handler)
      (handler : Option mxlog_channel_handler) (data : Nat)
  | set_error
  | irq (irq : Int)

/-- One action of another context, applied to the worker's view. -/
def apply_env {σ : Type} (a : env_action) (w : worker σ) : worker σ :=
  match a with
  | env_action.register p h d =>
      { w with t := mxlog_transport_register_channel_handler w.t p h d }
  | env_action.set_error => { w with t := mxlog_transport_set_error w.t }
  | env_action.irq n =>
      { w with t := (input_irq_handler n w.t).1,
               trace := w.trace ++ (input_irq_handler n w.t).2 }

/-- A list of actions of other contexts, applied in order. -/
def apply_envs {σ : Type} (as : List env_action) (w : worker σ) : worker σ :=
  as.foldl (fun acc a => apply_env a acc) w

/-- How one iteration of the drain loop of `mxlog_thread_function` ends. -/
inductive step_result (σ : Type) where
  | no_more (w : worker σ)
  | next (w : worker σ)
  | returned (w : worker σ)
  | oops (w : worker σ)

/-- One iteration of
`while (mif_stream_read(&mxlog_transport->mif_stream, &header, sizeof(uint32_t)))`
with its body.  `interf` are the actions of other contexts before the iteration
takes the lock.  `no_more`: the header read gave `0` and the loop ends;
`next`: the body ran to `mutex_unlock`; `returned`: the body did `return 0`;
`oops`: the body called through a `NULL` `channel_handler_fn`. -/
def frame_step {σ : Type} (ops : mif_stream_ops σ) (interf : List env_action)
    (w0 : worker σ) : step_result σ :=
  let w := apply_envs interf w0
  let r := ops.read w.t.mif_stream sizeof_uint32_t
  let w1 : worker σ :=
    { w with t := { w.t with mif_stream := r.2 },
             header := mem_store w.header r.1,
             trace := w.trace ++ [Event.mif_stream_read read_dst.header sizeof_uint32_t r.1.length] }
  if r.1.length = 0 then step_result.no_more w1
  else
    match w1.t.header_handler_fn with
    | none => step_result.returned { w1 with trace := w1.trace ++ [Event.kfree] }
    | some f =>
      let d := f (le32 w1.header)
      let phase := d.phase % 256
      let level := d.level % 256
      let num_bytes := d.num_bytes % 2 ^ 32
      if d.ret ≠ 0 then
        step_result.returned { w1 with trace := w1.trace ++ [Event.kfree] }
      else if 0 < num_bytes ∧ num_bytes < MXLOG_TRANSPORT_BUF_LENGTH - sizeof_uint32_t then
        let p := ops.read w1.t.mif_stream num_bytes
        let ret_bytes := p.1.length % 2 ^ 32
        let buf := mem_store w1.buf p.1
        let w2 : worker σ :=
          { w1 with t := { w1.t with mif_stream := p.2 },
                    buf := buf,
                    trace := w1.trace ++
                      [Event.mif_stream_read read_dst.buf num_bytes p.1.length,
                       Event.channel_handler w1.t.channel_handler_fn phase buf ret_bytes level
                         w1.t.channel_handler_data] }
        match w1.t.channel_handler_fn with
        | none => step_result.oops w2
        | some _ => step_result.next w2
      else step_result.next w1

/-- How the drain loop ends. -/
inductive drain_result (σ : Type) where
  | drained (w : worker σ)
  | returned (w : worker σ)
  | oops (w : worker σ)
  | out_of_fuel (w : worker σ)

/-- The drain loop of `mxlog_thread_function`: iterations of `frame_step`, at
most `fuel` of them; `sched` gives, per iteration, the actions of other
contexts that come before it. -/
def drain {σ : Type} (ops : mif_stream_ops σ) :
    Nat → List (List env_action) → worker σ → drain_result σ
  | 0, _, w => drain_result.out_of_fuel w
  | fuel + 1, sched, w =>
    match frame_step ops (sched.headD []) w with
    | step_result.no_more w1 => drain_result.drained w1
    | step_result.next w1 => drain ops fuel sched.tail w1
    | step_result.returned w1 => drain_result.returned w1
    | step_result.oops w1 => drain_result.oops w1

/-- Modelled from the spec: the kernel primitive `wait_event_interruptible` on
the condition `(th->wakeup_flag && !th->block_thread) || kthread_should_stop()`
(wait_for_work_or_stop: blocks until a notify has occurred and the latch is
not blocked, or a stop request has been issued).  `some 0`: the condition
holds; `some (-ERESTARTSYS)`: a signal interrupted the wait; `none`: the
worker stays asleep. -/
def wait_event_interruptible (th : mxlog_thread) (stop signal : Bool) : Option Int :=
  if (th.wakeup_flag ≠ 0 ∧ th.block_thread = 0) ∨ stop = true then some 0
  else if signal = true then some (-ERESTARTSYS)
  else none

/-- The C function `thread_wait_until_stopped`, after `schedule()` has come
back. -/
def thread_wait_until_stopped {σ : Type} (t : mxlog_transport σ) : mxlog_transport σ :=
  { t with mxlog_thread := { t.mxlog_thread with task := task_ptr.NULL } }

/-- The tail of `mxlog_thread_function` after its outer loop:
`kfree(buf); complete(&th->completion); return 0;`. -/
def thread_exit {σ : Type} (w : worker σ) : worker σ :=
  { w with t := { w.t with mxlog_thread :=
                    { w.t.mxlog_thread with completion := w.t.mxlog_thread.completion + 1 } },
           trace := w.trace ++ [Event.kfree, Event.complete] }

/-- The assignment `th->wakeup_flag = 0` of the woken worker. -/
def clear_wakeup {σ : Type} (w : worker σ) : worker σ :=
  { w with t := { w.t with mxlog_thread := { w.t.mxlog_thread with wakeup_flag := 0 } } }

/-- What the surroundings do during one iteration of the outer loop of
`mxlog_thread_function`: the three answers of `kthread_should_stop()` (loop
test, wait condition, test after the wait), whether a signal interrupts the
wait, the actions of other contexts while the worker sleeps and those before
each drain iteration. -/
structure pass_env where
  stop_head : Bool
  asleep : List env_action
  stop_wait : Bool
  signal : Bool
  stop_after : Bool
  sched : List (List env_action)

/-- How one iteration of the outer loop of `mxlog_thread_function` ends. -/
inductive pass_result (σ : Type) where
  | waiting (w : worker σ)
  | looping (w : worker σ)
  | exited (w : worker σ)
  | returned (w : worker σ)
  | oops (w : worker σ)
  | out_of_fuel (w : worker σ)

/-- One iteration of `while (!kthread_should_stop())` of `mxlog_thread_function`.
`waiting`: the worker is still asleep; `looping`: the drain loop ended and the
worker is back at the loop test; `exited`: the loop was left and the function
returned through its tail; `returned`: a `return 0` inside the loop;
`oops`: a call through a `NULL` `channel_handler_fn`. -/
def mxlog_thread_pass {σ : Type} (ops : mif_stream_ops σ) (fuel : Nat) (e : pass_env)
    (w0 : worker σ) : pass_result σ :=
  if e.stop_head = true then pass_result.exited (thread_exit w0)
  else
    let w := apply_envs e.asleep w0
    match wait_event_interruptible w.t.mxlog_thread e.stop_wait e.signal with
    | none => pass_result.waiting w
    | some ret =>
      if e.stop_after = true then pass_result.exited (thread_exit w)
      else if ret < 0 then
        pass_result.exited (thread_exit { w with t := thread_wait_until_stopped w.t })
      else
        let w1 := clear_wakeup w
        match w1.t.header_handler_fn with
        | none => pass_result.returned { w1 with trace := w1.trace ++ [Event.kfree] }
        | some _ =>
          match drain ops fuel e.sched w1 with
          | drain_result.drained w2 => pass_result.looping w2
          | drain_result.returned w2 => pass_result.returned w2
          | drain_result.oops w2 => pass_result.oops w2
          | drain_result.out_of_fuel w2 => pass_result.out_of_fuel w2

/-- The outer loop of `mxlog_thread_function`, one `pass_env` per iteration; when
the list is used up the worker is where the last iteration left it. -/
def thread_loop {σ : Type} (ops : mif_stream_ops σ) (fuel : Nat) :
    List pass_env → worker σ → pass_result σ
  | [], w => pass_result.looping w
  | e :: es, w =>
    match mxlog_thread_pass ops fuel e w with
    | pass_result.looping w1 => thread_loop ops fuel es w1
    | pass_result.waiting w1 => thread_loop ops fuel es w1
    | r => r

/-- The C function `mxlog_thread_function`: `complete(&th->completion)`,
`th->block_thread = 0`, the allocation of `buf`, then the outer loop. -/
def mxlog_thread_function {σ : Type} (ops : mif_stream_ops σ) (fuel : Nat)
    (envs : List pass_env) (t : mxlog_transport σ) (header0 buf0 : List Nat) :
    pass_result σ :=
  let th := { t.mxlog_thread with completion := t.mxlog_thread.completion + 1,
                                  block_thread := 0 }
  thread_loop ops fuel envs
    { t := { t with mxlog_thread := th }, header := header0, buf := buf0,
      trace := [Event.complete] }

/-! ## Lifecycle -/

/-- What the kernel answers during `mxlog_thread_start`: the pointer
`kthread_run` returns and the value of `wait_for_completion_timeout`
(`0` when the wait timed out). -/
structure start_env where
  kthread_run : task_ptr
  completion_wait : Nat

/-- The C function `mxlog_thread_start`. -/
def mxlog_thread_start {σ : Type} (e : start_env) (t : mxlog_transport σ) :
    Int × mxlog_transport σ :=
  if t.mxlog_thread.task ≠ task_ptr.NULL then (0, t)
  else
    let th : mxlog_thread :=
      { task := e.kthread_run, wakeup_flag := 0, block_thread := 1, completion := 0,
        name := "mxlog_thread" }
    let t1 := { t with mxlog_thread := th }
    match e.kthread_run with
    | task_ptr.ERR err => (err, t1)
    | _ => if e.completion_wait = 0 then (-ETIMEDOUT, t1) else (0, t1)

/-- The C function `mxlog_thread_stop`. -/
def mxlog_thread_stop {σ : Type} (t : mxlog_transport σ) :
    mxlog_transport σ × List Event :=
  if t.mxlog_thread.task = task_ptr.NULL then (t, [])
  else
    ({ t with mxlog_thread := { t.mxlog_thread with task := task_ptr.NULL } },
      [Event.kthread_stop t.mxlog_thread.task])

/-- The C function `mxlog_transport_release`. -/
def mxlog_transport_release {σ : Type} (ops : mif_stream_ops σ) (t : mxlog_transport σ) :
    mxlog_transport σ × List Event :=
  let r := mxlog_thread_stop t
  ({ r.1 with mif_stream := ops.release r.1.mif_stream }, r.2 ++ [Event.mif_stream_release])

/-- What the surroundings answer during `mxlog_transport_init`: the return value
of `mif_stream_init` with the stream it set up, and the answers for
`mxlog_thread_start`. -/
structure init_env (σ : Type) where
  stream_init_ret : Int
  stream : σ
  start : start_env

/-- The C function `mxlog_transport_init`: the value returned, the transport
after the call and the collaborator calls made after `mif_stream_init`. -/
def mxlog_transport_init {σ : Type} (ops : mif_stream_ops σ) (e : init_env σ) (mx : Nat) :
    Int × mxlog_transport σ × List Event :=
  let t0 : mxlog_transport σ :=
    { mx := mx, mif_stream := e.stream,
      mxlog_thread := { task := task_ptr.NULL, wakeup_flag := 0, block_thread := 0,
                        completion := 0, name := "" },
      header_handler_fn := none, channel_handler_fn := none, channel_handler_data := 0 }
  if e.stream_init_ret ≠ 0 then (e.stream_init_ret, t0, [])
  else
    let r := mxlog_thread_start e.start t0
    if r.1 ≠ 0 then
      (r.1, { r.2 with mif_stream := ops.release r.2.mif_stream }, [Event.mif_stream_release])
    else (0, r.2, [])

/-! ## Stream contents and trace projections, used to state the properties -/

/-- Modelled from the spec: a RingStream whose pending content is a queue of
bytes; `read` takes up to `n` bytes from the front (fewer, or none, when the
queue holds fewer), `release` drops the content. -/
def byte_stream : mif_stream_ops (List Nat) :=
  { read := fun s n => (s.take n, s.drop n), release := fun _ => [] }

/-- A frame on the wire: four header bytes and the payload bytes. -/
structure frame where
  header : List Nat
  payload : List Nat
  deriving DecidableEq, Repr

/-- The byte count the decoder extracts from a frame's header, as the `u32` the
worker reads. -/
def frame_count (dec : mxlog_header_handler) (f : frame) : Nat :=
  (dec (le32 f.header)).num_bytes % 2 ^ 32

/-- The frame's byte count is in bounds: `0 < n < 4092`. -/
def frame_ok (dec : mxlog_header_handler) (f : frame) : Prop :=
  0 < frame_count dec f ∧ frame_count dec f < 4092

instance (dec : mxlog_header_handler) (f : frame) : Decidable (frame_ok dec f) := by
  unfold frame_ok; infer_instance

/-- The stream in state `s` holds exactly the frames `fs`, each with a header the
decoder `dec` accepts: a 4-byte read gives the next header; after a header
with a byte count in bounds a read of that many bytes gives the payload;
after a header with a byte count out of bounds the next header follows; after
the last frame a 4-byte read gives nothing. -/
def stream_holds {σ : Type} (ops : mif_stream_ops σ) (dec : mxlog_header_handler) :
    σ → List frame → Prop
  | s, [] => (ops.read s sizeof_uint32_t).1 = []
  | s, f :: fs =>
    (ops.read s sizeof_uint32_t).1 = f.header ∧ f.header.length = 4 ∧
    (dec (le32 f.header)).ret = 0 ∧
    (if frame_ok dec f then
      (ops.read (ops.read s sizeof_uint32_t).2 (frame_count dec f)).1 = f.payload ∧
      f.payload.length = frame_count dec f ∧
      stream_holds ops dec
        (ops.read (ops.read s sizeof_uint32_t).2 (frame_count dec f)).2 fs
    else stream_holds ops dec (ops.read s sizeof_uint32_t).2 fs)

/-- One call of the payload handler as the callee sees it: the function called
(`none` for a `NULL` pointer), and the arguments, the buffer argument being the
first `ret_bytes` bytes behind the pointer. -/
structure handler_call where
  fn : Option mxlog_channel_handler
  phase : Nat
  payload : List Nat
  ret_bytes : Nat
  level : Nat
  data : Nat
  deriving DecidableEq, Repr

/-- The payload-handler calls of a trace, in order. -/
def handler_calls : List Event → List handler_call
  | [] => []
  | Event.channel_handler fn ph buf n lv d :: es =>
      { fn := fn, phase := ph, payload := buf.take n, ret_bytes := n, level := lv, data := d }
        :: handler_calls es
  | _ :: es => handler_calls es

/-- The requested lengths of the stream reads into the scratch buffer, in order. -/
def buf_reads : List Event → List Nat
  | [] => []
  | Event.mif_stream_read read_dst.buf n _ :: es => n :: buf_reads es
  | _ :: es => buf_reads es

/-- The number of 4-byte header reads of a trace. -/
def header_reads : List Event → Nat
  | [] => 0
  | Event.mif_stream_read read_dst.header _ _ :: es => header_reads es + 1
  | _ :: es => header_reads es

/-- The handler call a frame in bounds is to produce under decoder `dec`,
handler `h` and context `ctx`. -/
def frame_call (dec : mxlog_header_handler) (h : Option mxlog_channel_handler) (ctx : Nat)
    (f : frame) : handler_call :=
  { fn := h, phase := (dec (le32 f.header)).phase % 256, payload := f.payload,
    ret_bytes := f.payload.length, level := (dec (le32 f.header)).level % 256, data := ctx }

/-- No other context acts during the drain loop. -/
def quiet (sched : List (List env_action)) : Prop := ∀ l ∈ sched, l = []

/-- The worker a `step_result` carries. -/
def step_result.worker {σ : Type} : step_result σ → worker σ
  | step_result.no_more w => w
  | step_result.next w => w
  | step_result.returned w => w
  | step_result.oops w => w

/-- The worker a `drain_result` carries. -/
def drain_result.worker {σ : Type} : drain_result σ → worker σ
  | drain_result.drained w => w
  | drain_result.returned w => w
  | drain_result.oops w => w
  | drain_result.out_of_fuel w => w

/-- The worker a `pass_result` carries. -/
def pass_result.worker {σ : Type} : pass_result σ → worker σ
  | pass_result.waiting w => w
  | pass_result.looping w => w
  | pass_result.exited w => w
  | pass_result.returned w => w
  | pass_result.oops w => w
  | pass_result.out_of_fuel w => w

/-- The frames in bounds among `fs`. -/
def frames_ok (dec : mxlog_header_handler) (fs : List frame) : List frame :=
  fs.filter (fun f => decide (frame_ok dec f))

/-- The worker after the iteration that finds the stream empty. -/
def after_end {σ : Type} (ops : mif_stream_ops σ) (w : worker σ) : worker σ :=
  { w with t := { w.t with mif_stream := (ops.read w.t.mif_stream sizeof_uint32_t).2 },
           trace := w.trace ++ [Event.mif_stream_read read_dst.header sizeof_uint32_t 0] }

/-- The worker after the iteration that delivers the frame `f` to handler `h`. -/
def after_ok {σ : Type} (ops : mif_stream_ops σ) (dec : mxlog_header_handler)
    (h : mxlog_channel_handler) (w : worker σ) (f : frame) : worker σ :=
  { t := { w.t with mif_stream :=
             (ops.read (ops.read w.t.mif_stream sizeof_uint32_t).2 (frame_count dec f)).2 },
    header := mem_store w.header f.header,
    buf := mem_store w.buf f.payload,
    trace := w.trace ++
      [Event.mif_stream_read read_dst.header sizeof_uint32_t 4,
       Event.mif_stream_read read_dst.buf (frame_count dec f) (frame_count dec f),
       Event.channel_handler (some h) ((dec (le32 f.header)).phase % 256)
         (mem_store w.buf f.payload) (frame_count dec f)
         ((dec (le32 f.header)).level % 256) w.t.channel_handler_data] }

/-- The worker after the iteration that skips the frame `f`. -/
def after_skip {σ : Type} (ops : mif_stream_ops σ) (w : worker σ) (f : frame) : worker σ :=
  { w with t := { w.t with mif_stream := (ops.read w.t.mif_stream sizeof_uint32_t).2 },
           header := mem_store w.header f.header,
           trace := w.trace ++ [Event.mif_stream_read read_dst.header sizeof_uint32_t 4] }

/-- The bytes of the local `header` after the 4-byte read of the next iteration. -/
def next_header {σ : Type} (ops : mif_stream_ops σ) (w : worker σ) : List Nat :=
  mem_store w.header (ops.read w.t.mif_stream sizeof_uint32_t).1

/-- The worker after an iteration that read a header and did `kfree(buf); return 0;`. -/
def after_bail {σ : Type} (ops : mif_stream_ops σ) (w : worker σ) : worker σ :=
  { w with t := { w.t with mif_stream := (ops.read w.t.mif_stream sizeof_uint32_t).2 },
           header := next_header ops w,
           trace := w.trace ++
             [Event.mif_stream_read read_dst.header sizeof_uint32_t
                (ops.read w.t.mif_stream sizeof_uint32_t).1.length,
              Event.kfree] }

/-- The interrupts cleared in a trace, in order. -/
def irq_clears : List Event → List Int
  | [] => []
  | Event.irq_bit_clear irq :: es => irq :: irq_clears es
  | _ :: es => irq_clears es

/-- A decoder and a handler given together: a handler is present whenever a
decoder is. -/
def as_unit (parser : Option mxlog_header_handler) (handler : Option mxlog_channel_handler) :
    Prop :=
  parser ≠ none → handler ≠ none

/-- The action of another context registers decoder and handler as a unit (or
is no registration). -/
def unit_action : env_action → Prop
  | env_action.register p h _ => as_unit p h
  | _ => True

/-- Every action of other contexts during the pass satisfies `A`. -/
def pass_env.all (A : env_action → Prop) (e : pass_env) : Prop :=
  (∀ a ∈ e.asleep, A a) ∧ (∀ l ∈ e.sched, ∀ a ∈ l, A a)

/-- Every payload read of the trace asked for fewer bytes than the scratch
buffer holds, and the buffer still has its initial contents `buf0` as long as
the trace has no payload read. -/
def buf_tracked {σ : Type} (buf0 : List Nat) (w : worker σ) : Prop :=
  (∀ n ∈ buf_reads w.trace, n < buf_sz) ∧ (buf_reads w.trace = [] → w.buf = buf0)

/-- Every handler call of the trace went through a registered handler, and the
registration is a unit. -/
def calls_sound {σ : Type} (w : worker σ) : Prop :=
  (∀ c ∈ handler_calls w.trace, c.fn ≠ none) ∧
    as_unit w.t.header_handler_fn w.t.channel_handler_fn

/-- The pass ended by a `return 0` inside the loop of `mxlog_thread_function`. -/
def pass_result.is_returned {σ : Type} : pass_result σ → Bool
  | pass_result.returned _ => true
  | _ => false

/-- The pass left the worker asleep in `wait_event_interruptible`. -/
def pass_result.is_waiting {σ : Type} : pass_result σ → Bool
  | pass_result.waiting _ => true
  | _ => false

/-! ## Concrete inputs -/

/-- A header decoder for concrete runs: header `1` is phase 1, level 0, 10 bytes;
header `2` announces 100000 bytes; header `3` is phase 1, level 4, 3 bytes;
header `4` announces 0 bytes; any other header is a bad sync. -/
def sample_decoder : mxlog_header_handler := fun header =>
  if header = 1 then { ret := 0, phase := 1, level := 0, num_bytes := 10 }
  else if header = 2 then { ret := 0, phase := 2, level := 3, num_bytes := 100000 }
  else if header = 3 then { ret := 0, phase := 1, level := 4, num_bytes := 3 }
  else if header = 4 then { ret := 0, phase := 5, level := 6, num_bytes := 0 }
  else { ret := -1, phase := 0, level := 0, num_bytes := 0 }

/-- A transport with a live worker, a pending wakeup, `sample_decoder` and the
handler at address `7` registered with context `42`, over the byte queue `s`. -/
def sample_transport (s : List Nat) : mxlog_transport (List Nat) :=
  { mx := 0, mif_stream := s,
    mxlog_thread := { task := task_ptr.task 1, wakeup_flag := 1, block_thread := 0,
                      completion := 1, name := "mxlog_thread" },
    header_handler_fn := some sample_decoder, channel_handler_fn := some 7,
    channel_handler_data := 42 }

/-- A worker at the top of its loop over `sample_transport s`, with a zeroed
header and scratch buffer and an empty trace. -/
def sample_worker (s : List Nat) : worker (List Nat) :=
  { t := sample_transport s, header := [0, 0, 0, 0], buf := List.replicate buf_sz 0,
    trace := [] }

/-- Surroundings that leave the worker alone: no stop request, no signal, no
action of another context. -/
def calm : pass_env :=
  { stop_head := false, asleep := [], stop_wait := false, signal := false,
    stop_after := false, sched := [] }

/-- The frame of the scenario: header `1`, payload the ten ASCII digits. -/
def frame_digits : frame :=
  { header := [1, 0, 0, 0], payload := [48, 49, 50, 51, 52, 53, 54, 55, 56, 57] }

/-- A frame whose header announces 100000 bytes. -/
def frame_huge : frame := { header := [2, 0, 0, 0], payload := [] }

/-- A frame of three payload bytes. -/
def frame_three : frame := { header := [3, 0, 0, 0], payload := [1, 2, 3] }

/-- Answers for `mxlog_transport_init` over the byte queue `s`: the stream is set
up, `kthread_run` gives task `1`, and the completion wait gives `wait`. -/
def sample_init (s : List Nat) (wait : Nat) : init_env (List Nat) :=
  { stream_init_ret := 0, stream := s,
    start := { kthread_run := task_ptr.task 1, completion_wait := wait } }

/-- Surroundings in which the actions `as` of other contexts come while the
worker sleeps and nothing else happens. -/
def wake_with (as : List env_action) : pass_env :=
  { stop_head := false, asleep := as, stop_wait := false, signal := false,
    stop_after := false, sched := [] }

/-- The bytes of a frame on the wire. -/
def frame.bytes (f : frame) : List Nat := f.header ++ f.payload

/-! ## Lemmas on the trace projections -/

theorem handler_calls_append (a b : List Event) :
    handler_calls (a ++ b) = handler_calls a ++ handler_calls b := by
  induction a with
  | nil => rfl
  | cons e es ih => cases e <;> simp [handler_calls, ih]

theorem buf_reads_append (a b : List Event) :
    buf_reads (a ++ b) = buf_reads a ++ buf_reads b := by
  induction a with
  | nil => rfl
  | cons e es ih =>
    cases e with
    | mif_stream_read dst n r => cases dst <;> simp [buf_reads, ih]
    | _ => simp [buf_reads, ih]

theorem header_reads_append (a b : List Event) :
    header_reads (a ++ b) = header_reads a + header_reads b := by
  induction a with
  | nil => simp [header_reads]
  | cons e es ih =>
    cases e with
    | mif_stream_read dst n r => cases dst <;> simp [header_reads, ih]; omega
    | _ => simp [header_reads, ih]

theorem le32_mem_store (h d : List Nat) (hd : d.length = 4) :
    le32 (mem_store h d) = le32 d := by
  match d, hd with
  | [a, b, c, e], _ => simp [le32, mem_store]

theorem take_mem_store (b d : List Nat) : (mem_store b d).take d.length = d := by
  simp [mem_store]

/-! ## One iteration of the drain loop -/

theorem frame_count_lt (dec : mxlog_header_handler) (f : frame) :
    frame_count dec f < 2 ^ 32 := by
  unfold frame_count
  exact Nat.mod_lt _ (by norm_num)

/-- The iteration on an empty stream: the loop ends. -/
theorem frame_step_end {σ : Type} (ops : mif_stream_ops σ) (w : worker σ)
    (hr : (ops.read w.t.mif_stream sizeof_uint32_t).1 = []) :
    frame_step ops [] w = step_result.no_more (after_end ops w) := by
  simp [frame_step, apply_envs, hr, mem_store, after_end]

/-- The iteration on an accepted header with a byte count in bounds: payload read
and handler call. -/
theorem frame_step_ok {σ : Type} (ops : mif_stream_ops σ) (dec : mxlog_header_handler)
    (h : mxlog_channel_handler) (w : worker σ) (f : frame)
    (hd : w.t.header_handler_fn = some dec) (hc : w.t.channel_handler_fn = some h)
    (hr : (ops.read w.t.mif_stream sizeof_uint32_t).1 = f.header)
    (hl : f.header.length = 4) (hret : (dec (le32 f.header)).ret = 0)
    (hok : frame_ok dec f)
    (hp : (ops.read (ops.read w.t.mif_stream sizeof_uint32_t).2 (frame_count dec f)).1
            = f.payload)
    (hpl : f.payload.length = frame_count dec f) :
    frame_step ops [] w = step_result.next (after_ok ops dec h w f) := by
  have hb : 0 < (dec (le32 f.header)).num_bytes % 2 ^ 32 ∧
      (dec (le32 f.header)).num_bytes % 2 ^ 32 < MXLOG_TRANSPORT_BUF_LENGTH - sizeof_uint32_t := by
    have := hok
    simpa [frame_ok, frame_count, MXLOG_TRANSPORT_BUF_LENGTH, sizeof_uint32_t] using this
  have hlt : frame_count dec f % 2 ^ 32 = frame_count dec f :=
    Nat.mod_eq_of_lt (frame_count_lt dec f)
  unfold frame_count at hp hpl hlt
  simp only [frame_step, apply_envs, List.foldl_nil, hr, hl, hd, hc,
    le32_mem_store _ _ hl, hret, hb, hp, hpl, hlt, after_ok]
  simp [frame_count]

/-- The iteration on an accepted header with a byte count out of bounds: nothing
but the header read. -/
theorem frame_step_skip {σ : Type} (ops : mif_stream_ops σ) (dec : mxlog_header_handler)
    (w : worker σ) (f : frame)
    (hd : w.t.header_handler_fn = some dec)
    (hr : (ops.read w.t.mif_stream sizeof_uint32_t).1 = f.header)
    (hl : f.header.length = 4) (hret : (dec (le32 f.header)).ret = 0)
    (hok : ¬ frame_ok dec f) :
    frame_step ops [] w = step_result.next (after_skip ops w f) := by
  have hb : ¬ (0 < (dec (le32 f.header)).num_bytes % 2 ^ 32 ∧
      (dec (le32 f.header)).num_bytes % 2 ^ 32 < MXLOG_TRANSPORT_BUF_LENGTH - sizeof_uint32_t) := by
    have := hok
    simpa [frame_ok, frame_count, MXLOG_TRANSPORT_BUF_LENGTH, sizeof_uint32_t] using this
  simp only [frame_step, apply_envs, List.foldl_nil, hr, hl, hd,
    le32_mem_store _ _ hl, hret, hb, after_skip]
  simp

/-! ## The drain loop on a stream of accepted frames -/

theorem quiet_head (sched : List (List env_action)) (hq : quiet sched) :
    sched.headD [] = [] := by
  cases sched with
  | nil => rfl
  | cons l ls => exact hq l (by simp)

theorem quiet_tail (sched : List (List env_action)) (hq : quiet sched) :
    quiet sched.tail := by
  cases sched with
  | nil => exact hq
  | cons l ls => intro x hx; exact hq x (List.mem_cons_of_mem _ hx)

/-- The drain loop, undisturbed, on a stream holding the accepted frames `fs`:
with more fuel than frames it ends by an empty header read, having called the
handler for the frames in bounds, in order, and for no other. -/
theorem drain_frames {σ : Type} (ops : mif_stream_ops σ) (dec : mxlog_header_handler)
    (h : mxlog_channel_handler) :
    ∀ (fs : List frame) (fuel : Nat) (sched : List (List env_action)) (w : worker σ),
      quiet sched → w.t.header_handler_fn = some dec → w.t.channel_handler_fn = some h →
      stream_holds ops dec w.t.mif_stream fs → fs.length < fuel →
      ∃ w1, drain ops fuel sched w = drain_result.drained w1 ∧
        handler_calls w1.trace = handler_calls w.trace ++
          (frames_ok dec fs).map (frame_call dec (some h) w.t.channel_handler_data) ∧
        buf_reads w1.trace = buf_reads w.trace ++ (frames_ok dec fs).map (frame_count dec) ∧
        header_reads w1.trace = header_reads w.trace + fs.length + 1 ∧
        w1.t.mxlog_thread = w.t.mxlog_thread ∧
        w1.t.header_handler_fn = w.t.header_handler_fn ∧
        w1.t.channel_handler_fn = w.t.channel_handler_fn ∧
        w1.t.channel_handler_data = w.t.channel_handler_data := by
  intro fs
  induction fs with
  | nil =>
    intro fuel sched w hq hd hc hs hf
    obtain ⟨k, rfl⟩ : ∃ k, fuel = k + 1 := ⟨fuel - 1, by simp at hf; omega⟩
    have hr : (ops.read w.t.mif_stream sizeof_uint32_t).1 = [] := hs
    refine ⟨after_end ops w,
      by simp only [drain, quiet_head sched hq, frame_step_end ops w hr], ?_⟩
    simp [after_end, handler_calls_append, buf_reads_append, header_reads_append,
      handler_calls, buf_reads, header_reads, frames_ok]
  | cons f fs ih =>
    intro fuel sched w hq hd hc hs hf
    obtain ⟨k, rfl⟩ : ∃ k, fuel = k + 1 := ⟨fuel - 1, by simp at hf; omega⟩
    have hk : fs.length < k := by simp at hf; omega
    obtain ⟨hr, hl, hret, hrest⟩ := hs
    by_cases hok : frame_ok dec f
    · rw [if_pos hok] at hrest
      obtain ⟨hp, hpl, hs1⟩ := hrest
      have hstep := frame_step_ok ops dec h w f hd hc hr hl hret hok hp hpl
      obtain ⟨w1, hdr, h1, h2, h3, h4, h5, h6, h7⟩ :=
        ih k sched.tail (after_ok ops dec h w f) (quiet_tail sched hq) hd hc hs1 hk
      refine ⟨w1, ?_, ?_, ?_, ?_, ?_, ?_, ?_, ?_⟩
      · simp only [drain, quiet_head sched hq, hstep]
        exact hdr
      · rw [h1]
        simp [after_ok, handler_calls_append, handler_calls, frames_ok, hok, frame_call,
          hpl.symm, take_mem_store]
      · rw [h2]
        simp [after_ok, buf_reads_append, buf_reads, frames_ok, hok]
      · rw [h3]
        simp [after_ok, header_reads_append, header_reads]
        omega
      · exact h4
      · exact h5
      · exact h6
      · exact h7
    · rw [if_neg hok] at hrest
      have hstep := frame_step_skip ops dec w f hd hr hl hret hok
      obtain ⟨w1, hdr, h1, h2, h3, h4, h5, h6, h7⟩ :=
        ih k sched.tail (after_skip ops w f) (quiet_tail sched hq) hd hc hrest hk
      refine ⟨w1, ?_, ?_, ?_, ?_, ?_, ?_, ?_, ?_⟩
      · simp only [drain, quiet_head sched hq, hstep]
        exact hdr
      · rw [h1]
        simp [after_skip, handler_calls_append, handler_calls, frames_ok, hok]
      · rw [h2]
        simp [after_skip, buf_reads_append, buf_reads, frames_ok, hok]
      · rw [h3]
        simp [after_skip, header_reads_append, header_reads]
        omega
      · exact h4
      · exact h5
      · exact h6
      · exact h7

/-! ## One pass of the worker on a stream of accepted frames -/

theorem apply_envs_nil {σ : Type} (w : worker σ) : apply_envs [] w = w := rfl

/-- A pending wakeup with the fault flag clear ends the wait with `0`. -/
theorem wait_work (th : mxlog_thread) (stop signal : Bool) (hwake : th.wakeup_flag ≠ 0)
    (hblk : th.block_thread = 0) : wait_event_interruptible th stop signal = some 0 := by
  simp [wait_event_interruptible, hwake, hblk]

/-- One pass of the woken, undisturbed worker on a stream holding the accepted
frames `fs`: with more fuel than frames the pass ends back at the loop test. -/
theorem pass_frames {σ : Type} (ops : mif_stream_ops σ) (dec : mxlog_header_handler)
    (h : mxlog_channel_handler) (fuel : Nat) (e : pass_env) (w : worker σ) (fs : List frame)
    (hd : w.t.header_handler_fn = some dec) (hc : w.t.channel_handler_fn = some h)
    (hstop : e.stop_head = false ∧ e.stop_wait = false ∧ e.stop_after = false)
    (hasleep : e.asleep = []) (hq : quiet e.sched)
    (hwake : w.t.mxlog_thread.wakeup_flag ≠ 0) (hblk : w.t.mxlog_thread.block_thread = 0)
    (hs : stream_holds ops dec w.t.mif_stream fs) (hf : fs.length < fuel) :
    ∃ w1, mxlog_thread_pass ops fuel e w = pass_result.looping w1 ∧
      handler_calls w1.trace = handler_calls w.trace ++
        (frames_ok dec fs).map (frame_call dec (some h) w.t.channel_handler_data) ∧
      buf_reads w1.trace = buf_reads w.trace ++ (frames_ok dec fs).map (frame_count dec) ∧
      header_reads w1.trace = header_reads w.trace + fs.length + 1 := by
  obtain ⟨h1, h2, h3⟩ := hstop
  obtain ⟨w1, hdr, c1, c2, c3, -⟩ :=
    drain_frames ops dec h fs fuel e.sched (clear_wakeup w) hq hd hc hs hf
  refine ⟨w1, ?_, c1, c2, c3⟩
  have hwait : wait_event_interruptible w.t.mxlog_thread e.stop_wait e.signal = some 0 :=
    wait_work w.t.mxlog_thread e.stop_wait e.signal hwake hblk
  have hd1 : (clear_wakeup w).t.header_handler_fn = some dec := hd
  unfold mxlog_thread_pass
  simp only [h1, h3, hasleep, apply_envs, List.foldl_nil, hwait, hd1, hdr]
  simp

theorem frames_ok_all (dec : mxlog_header_handler) (fs : List frame)
    (hok : ∀ f ∈ fs, frame_ok dec f) : frames_ok dec fs = fs := by
  unfold frames_ok
  rw [List.filter_eq_self]
  intro f hf
  simpa using hok f hf

theorem stream_holds_payload_length {σ : Type} (ops : mif_stream_ops σ)
    (dec : mxlog_header_handler) :
    ∀ (fs : List frame) (s : σ), stream_holds ops dec s fs → (∀ f ∈ fs, frame_ok dec f) →
      ∀ f ∈ fs, f.payload.length = frame_count dec f := by
  intro fs
  induction fs with
  | nil => intro s _ _ f hf; simp at hf
  | cons g gs ih =>
    intro s hs hok f hf
    obtain ⟨-, -, -, hrest⟩ := hs
    rw [if_pos (hok g (by simp))] at hrest
    rcases List.mem_cons.mp hf with rfl | hmem
    · exact hrest.2.1
    · exact ih _ hrest.2.2 (fun x hx => hok x (List.mem_cons_of_mem _ hx)) f hmem

/-! ## What one iteration may do to the buffer and the trace -/

theorem frame_step_interf {σ : Type} (ops : mif_stream_ops σ) (interf : List env_action)
    (w : worker σ) : frame_step ops interf w = frame_step ops [] (apply_envs interf w) := rfl

/-- An iteration, undisturbed, keeps the registration and either leaves the
scratch buffer alone, reading no payload and calling no handler, or issues
exactly one payload read, of a length `0 < n < 4092`, stores what that read
gave at the start of the buffer and calls through `channel_handler_fn`, a
decoder being registered. -/
theorem frame_step_shape {σ : Type} (ops : mif_stream_ops σ) (w : worker σ) :
    (frame_step ops [] w).worker.t.header_handler_fn = w.t.header_handler_fn ∧
    (frame_step ops [] w).worker.t.channel_handler_fn = w.t.channel_handler_fn ∧
    ∃ evs, (frame_step ops [] w).worker.trace = w.trace ++ evs ∧
      ((buf_reads evs = [] ∧ handler_calls evs = [] ∧ (frame_step ops [] w).worker.buf = w.buf) ∨
       (∃ n s, 0 < n ∧ n < 4092 ∧ buf_reads evs = [n] ∧
          (frame_step ops [] w).worker.buf = mem_store w.buf (ops.read s n).1 ∧
          w.t.header_handler_fn ≠ none ∧
          ∀ c ∈ handler_calls evs, c.fn = w.t.channel_handler_fn)) := by
  generalize hr : frame_step ops [] w = r
  unfold frame_step at hr
  rw [apply_envs_nil] at hr
  simp only [] at hr
  split_ifs at hr with hlen
  · subst hr
    exact ⟨rfl, rfl, _, rfl, Or.inl ⟨rfl, rfl, rfl⟩⟩
  · split at hr
    · subst hr
      exact ⟨rfl, rfl, _, List.append_assoc _ _ _, Or.inl ⟨rfl, rfl, rfl⟩⟩
    · rename_i dec hd
      split_ifs at hr with hret hb
      · subst hr
        exact ⟨rfl, rfl, _, List.append_assoc _ _ _, Or.inl ⟨rfl, rfl, rfl⟩⟩
      · have hb2 : (dec (le32 (mem_store w.header
            (ops.read w.t.mif_stream sizeof_uint32_t).1))).num_bytes % 2 ^ 32 < 4092 := hb.2
        have hd2 : w.t.header_handler_fn ≠ none := by
          intro hn
          simp [hn] at hd
        split at hr <;>
        · subst hr
          refine ⟨rfl, rfl, _, List.append_assoc _ _ _,
            Or.inr ⟨_, _, hb.1, hb2, rfl, rfl, hd2, ?_⟩⟩
          simp [handler_calls]
      · subst hr
        exact ⟨rfl, rfl, _, rfl, Or.inl ⟨rfl, rfl, rfl⟩⟩

/-! ## Invariants of the worker -/

theorem irq_handler_no_reads {σ : Type} (irq : Int) (t : mxlog_transport σ) :
    buf_reads (input_irq_handler irq t).2 = [] ∧
      handler_calls (input_irq_handler irq t).2 = [] ∧
      (input_irq_handler irq t).1.header_handler_fn = t.header_handler_fn ∧
      (input_irq_handler irq t).1.channel_handler_fn = t.channel_handler_fn := by
  unfold input_irq_handler
  split_ifs <;> simp [buf_reads, handler_calls]

theorem apply_envs_inv {σ : Type} (P : worker σ → Prop) (A : env_action → Prop)
    (henv : ∀ a w, A a → P w → P (apply_env a w)) :
    ∀ (as : List env_action) (w : worker σ), (∀ a ∈ as, A a) → P w → P (apply_envs as w) := by
  intro as
  induction as with
  | nil => intro w _ hw; exact hw
  | cons a as ih =>
    intro w hA hw
    exact ih (apply_env a w) (fun x hx => hA x (List.mem_cons_of_mem _ hx))
      (henv a w (hA a (by simp)) hw)

theorem drain_inv {σ : Type} (ops : mif_stream_ops σ) (P : worker σ → Prop)
    (A : env_action → Prop) (henv : ∀ a w, A a → P w → P (apply_env a w))
    (hstep : ∀ w, P w → P (frame_step ops [] w).worker) :
    ∀ (fuel : Nat) (sched : List (List env_action)) (w : worker σ),
      (∀ l ∈ sched, ∀ a ∈ l, A a) → P w → P (drain ops fuel sched w).worker := by
  intro fuel
  induction fuel with
  | zero => intro sched w _ hw; exact hw
  | succ k ih =>
    intro sched w hA hw
    have hhead : ∀ a ∈ sched.headD [], A a := by
      cases sched with
      | nil => intro a ha; simp at ha
      | cons l ls => exact hA l (by simp)
    have htail : ∀ l ∈ sched.tail, ∀ a ∈ l, A a := by
      cases sched with
      | nil => intro l hl; simp at hl
      | cons l ls => intro x hx; exact hA x (List.mem_cons_of_mem _ hx)
    have h1 : P (frame_step ops (sched.headD []) w).worker := by
      rw [frame_step_interf]
      exact hstep _ (apply_envs_inv P A henv _ w hhead hw)
    unfold drain
    generalize frame_step ops (sched.headD []) w = r at h1
    cases r with
    | no_more w1 => exact h1
    | next w1 => exact ih sched.tail w1 htail h1
    | returned w1 => exact h1
    | oops w1 => exact h1

theorem pass_inv {σ : Type} (ops : mif_stream_ops σ) (P : worker σ → Prop)
    (A : env_action → Prop) (henv : ∀ a w, A a → P w → P (apply_env a w))
    (hstep : ∀ w, P w → P (frame_step ops [] w).worker)
    (hclear : ∀ w, P w → P (clear_wakeup w))
    (hexit : ∀ w, P w → P (thread_exit w))
    (hstopped : ∀ w : worker σ, P w → P { w with t := thread_wait_until_stopped w.t })
    (hkfree : ∀ w : worker σ, P w → P { w with trace := w.trace ++ [Event.kfree] })
    (fuel : Nat) (e : pass_env) (w : worker σ) (hA : e.all A) (hw : P w) :
    P (mxlog_thread_pass ops fuel e w).worker := by
  have hw1 : P (apply_envs e.asleep w) := apply_envs_inv P A henv _ w hA.1 hw
  have hdr := drain_inv ops P A henv hstep fuel e.sched (clear_wakeup (apply_envs e.asleep w))
    hA.2 (hclear _ hw1)
  unfold mxlog_thread_pass
  by_cases hs : e.stop_head = true
  · rw [if_pos hs]
    exact hexit w hw
  · rw [if_neg hs]
    simp only []
    split
    · exact hw1
    · split_ifs
      · exact hexit _ hw1
      · exact hexit _ (hstopped _ hw1)
      · split
        · exact hkfree _ (hclear _ hw1)
        · generalize drain ops fuel e.sched (clear_wakeup (apply_envs e.asleep w)) = r at hdr
          cases r <;> exact hdr

theorem thread_loop_inv {σ : Type} (ops : mif_stream_ops σ) (P : worker σ → Prop)
    (A : env_action → Prop) (henv : ∀ a w, A a → P w → P (apply_env a w))
    (hstep : ∀ w, P w → P (frame_step ops [] w).worker)
    (hclear : ∀ w, P w → P (clear_wakeup w))
    (hexit : ∀ w, P w → P (thread_exit w))
    (hstopped : ∀ w : worker σ, P w → P { w with t := thread_wait_until_stopped w.t })
    (hkfree : ∀ w : worker σ, P w → P { w with trace := w.trace ++ [Event.kfree] })
    (fuel : Nat) :
    ∀ (envs : List pass_env) (w : worker σ), (∀ e ∈ envs, e.all A) → P w →
      P (thread_loop ops fuel envs w).worker := by
  intro envs
  induction envs with
  | nil => intro w _ hw; exact hw
  | cons e es ih =>
    intro w hA hw
    have h1 := pass_inv ops P A henv hstep hclear hexit hstopped hkfree fuel e w
      (hA e (by simp)) hw
    have hes : ∀ x ∈ es, x.all A := fun x hx => hA x (List.mem_cons_of_mem _ hx)
    unfold thread_loop
    generalize mxlog_thread_pass ops fuel e w = r at h1
    cases r with
    | looping w1 => exact ih w1 hes h1
    | waiting w1 => exact ih w1 hes h1
    | exited w1 => exact h1
    | returned w1 => exact h1
    | oops w1 => exact h1
    | out_of_fuel w1 => exact h1

/-! ## The claims -/

/-- C1: with a decoder, a handler and a context registered, one pass of the woken,
undisturbed worker over a stream that holds the well-formed frames `fs` (each
header accepted with a byte count `0 < n < 4092`, each payload read giving
exactly the `n` payload bytes) ends back at the loop test and has called the
handler exactly once per frame, in the order of the frames, with the frame's
phase, payload bytes, length `n`, level and the registered context. -/
theorem C1_frames_delivered_in_order {σ : Type} (ops : mif_stream_ops σ)
    (dec : mxlog_header_handler) (h : mxlog_channel_handler) (fuel : Nat) (e : pass_env)
    (w : worker σ) (fs : List frame)
    (hd : w.t.header_handler_fn = some dec) (hc : w.t.channel_handler_fn = some h)
    (hstop : e.stop_head = false ∧ e.stop_wait = false ∧ e.stop_after = false)
    (hasleep : e.asleep = []) (hq : quiet e.sched)
    (hwake : w.t.mxlog_thread.wakeup_flag ≠ 0) (hblk : w.t.mxlog_thread.block_thread = 0)
    (hs : stream_holds ops dec w.t.mif_stream fs) (hok : ∀ f ∈ fs, frame_ok dec f)
    (hf : fs.length < fuel) :
    ∃ w1, mxlog_thread_pass ops fuel e w = pass_result.looping w1 ∧
      handler_calls w1.trace = handler_calls w.trace ++
        fs.map (fun f =>
          { fn := some h, phase := (dec (le32 f.header)).phase % 256, payload := f.payload,
            ret_bytes := frame_count dec f, level := (dec (le32 f.header)).level % 256,
            data := w.t.channel_handler_data }) := by
  obtain ⟨w1, hp, hcalls, -, -⟩ :=
    pass_frames ops dec h fuel e w fs hd hc hstop hasleep hq hwake hblk hs hf
  refine ⟨w1, hp, ?_⟩
  rw [hcalls, frames_ok_all dec fs hok]
  congr 1
  apply List.map_congr_left
  intro f hfm
  simp [frame_call, stream_holds_payload_length ops dec fs _ hs hok f hfm]

/-- C1 at the scenario: the digits frame followed by a three-byte frame. -/
theorem C1_frames_delivered_in_order_witness :
    stream_holds byte_stream sample_decoder (frame_digits.bytes ++ frame_three.bytes)
        [frame_digits, frame_three] ∧
    ∃ w1, mxlog_thread_pass byte_stream 3 calm
        (sample_worker (frame_digits.bytes ++ frame_three.bytes)) = pass_result.looping w1 ∧
      handler_calls w1.trace =
        [{ fn := some 7, phase := 1, payload := [48, 49, 50, 51, 52, 53, 54, 55, 56, 57],
           ret_bytes := 10, level := 0, data := 42 },
         { fn := some 7, phase := 1, payload := [1, 2, 3], ret_bytes := 3, level := 4,
           data := 42 }] := by
  have hs : stream_holds byte_stream sample_decoder (frame_digits.bytes ++ frame_three.bytes)
      [frame_digits, frame_three] := by
    simp [stream_holds, byte_stream, frame.bytes, frame_digits, frame_three, sample_decoder,
      le32, frame_ok, frame_count, sizeof_uint32_t]
  have hok : ∀ f ∈ [frame_digits, frame_three], frame_ok sample_decoder f := by
    simp [frame_digits, frame_three, sample_decoder, le32, frame_ok, frame_count]
  refine ⟨hs, ?_⟩
  have key := C1_frames_delivered_in_order byte_stream sample_decoder 7 3 calm
    (sample_worker (frame_digits.bytes ++ frame_three.bytes)) [frame_digits, frame_three]
    rfl rfl ⟨rfl, rfl, rfl⟩ rfl (by simp [quiet, calm]) (by decide) rfl hs hok (by decide)
  simpa [sample_worker, sample_transport, handler_calls, frame_digits, frame_three,
    sample_decoder, le32, frame_count] using key

/-- C2: for a header the registered decoder accepts with byte count `n` (the
`u32` the worker reads), the iteration calls the payload handler, once, if and
only if `0 < n < 4092`, where `4092` is the capacity `4096` less the header size
`4`; for `n = 0` and for `n ≥ 4092` the handler calls of the trace stay as they
were. -/
theorem C2_handler_iff_count_in_bounds {σ : Type} (ops : mif_stream_ops σ)
    (dec : mxlog_header_handler) (w : worker σ)
    (hd : w.t.header_handler_fn = some dec)
    (hr : (ops.read w.t.mif_stream sizeof_uint32_t).1 ≠ [])
    (hret : (dec (le32 (next_header ops w))).ret = 0) :
    ((handler_calls (frame_step ops [] w).worker.trace).length
        = (handler_calls w.trace).length + 1 ↔
      (0 < (dec (le32 (next_header ops w))).num_bytes % 2 ^ 32 ∧
        (dec (le32 (next_header ops w))).num_bytes % 2 ^ 32 < 4092)) ∧
    (¬ (0 < (dec (le32 (next_header ops w))).num_bytes % 2 ^ 32 ∧
        (dec (le32 (next_header ops w))).num_bytes % 2 ^ 32 < 4092) →
      handler_calls (frame_step ops [] w).worker.trace = handler_calls w.trace) ∧
    MXLOG_TRANSPORT_BUF_LENGTH - sizeof_uint32_t = 4092 ∧ MXLOG_TRANSPORT_BUF_LENGTH = 4096 := by
  have hlen : (ops.read w.t.mif_stream sizeof_uint32_t).1.length ≠ 0 := by
    simpa using hr
  unfold next_header at hret
  by_cases hb : 0 < (dec (le32 (next_header ops w))).num_bytes % 2 ^ 32 ∧
      (dec (le32 (next_header ops w))).num_bytes % 2 ^ 32 < 4092
  · have hb1 : 0 < (dec (le32 (mem_store w.header
          (ops.read w.t.mif_stream sizeof_uint32_t).1))).num_bytes % 2 ^ 32 ∧
        (dec (le32 (mem_store w.header
          (ops.read w.t.mif_stream sizeof_uint32_t).1))).num_bytes % 2 ^ 32
          < MXLOG_TRANSPORT_BUF_LENGTH - sizeof_uint32_t := by
      simpa [next_header, MXLOG_TRANSPORT_BUF_LENGTH, sizeof_uint32_t] using hb
    refine ⟨⟨fun _ => hb, fun _ => ?_⟩, fun hn => absurd hb hn, by decide, by decide⟩
    cases hc : w.t.channel_handler_fn <;>
    · simp only [frame_step, apply_envs, List.foldl_nil, hlen, hd, hret, hb1, hc]
      simp [step_result.worker, handler_calls_append, handler_calls]
  · have hb1 : ¬ (0 < (dec (le32 (mem_store w.header
          (ops.read w.t.mif_stream sizeof_uint32_t).1))).num_bytes % 2 ^ 32 ∧
        (dec (le32 (mem_store w.header
          (ops.read w.t.mif_stream sizeof_uint32_t).1))).num_bytes % 2 ^ 32
          < MXLOG_TRANSPORT_BUF_LENGTH - sizeof_uint32_t) := by
      simpa [next_header, MXLOG_TRANSPORT_BUF_LENGTH, sizeof_uint32_t] using hb
    have hsame : handler_calls (frame_step ops [] w).worker.trace = handler_calls w.trace := by
      simp only [frame_step, apply_envs, List.foldl_nil, hlen, hd, hret, hb1]
      simp [step_result.worker, handler_calls_append, handler_calls]
    refine ⟨⟨fun hc => ?_, fun h => absurd h hb⟩, fun _ => hsame, by decide, by decide⟩
    rw [hsame] at hc
    omega

/-- C2 at a header announcing 100000 bytes: no handler call. -/
theorem C2_handler_iff_count_in_bounds_witness :
    (sample_worker frame_huge.bytes).t.header_handler_fn = some sample_decoder ∧
    handler_calls (frame_step byte_stream [] (sample_worker frame_huge.bytes)).worker.trace
      = handler_calls (sample_worker frame_huge.bytes).trace := by
  refine ⟨rfl, ?_⟩
  refine (C2_handler_iff_count_in_bounds byte_stream sample_decoder
    (sample_worker frame_huge.bytes) rfl ?_ ?_).2.1 ?_
  · simp [byte_stream, sample_worker, sample_transport, frame.bytes, frame_huge,
      sizeof_uint32_t]
  · simp [next_header, byte_stream, sample_worker, sample_transport, frame.bytes, frame_huge,
      sizeof_uint32_t, mem_store, le32, sample_decoder]
  · simp [next_header, byte_stream, sample_worker, sample_transport, frame.bytes, frame_huge,
      sizeof_uint32_t, mem_store, le32, sample_decoder]

/-- C5: when the decoder accepts a header whose byte count is out of bounds, the
iteration reads no payload and goes on (its only event is the header read), the
pass does not end the worker, and a valid frame that follows is delivered in
the same pass: of the frames `bad :: good :: rest` the handler is called for
`good`, then for the frames in bounds of `rest`, and the only payload reads
are theirs. -/
theorem C5_bad_count_skipped_next_delivered {σ : Type} (ops : mif_stream_ops σ)
    (dec : mxlog_header_handler) (h : mxlog_channel_handler) (fuel : Nat) (e : pass_env)
    (w : worker σ) (bad good : frame) (rest : List frame)
    (hd : w.t.header_handler_fn = some dec) (hc : w.t.channel_handler_fn = some h)
    (hstop : e.stop_head = false ∧ e.stop_wait = false ∧ e.stop_after = false)
    (hasleep : e.asleep = []) (hq : quiet e.sched)
    (hwake : w.t.mxlog_thread.wakeup_flag ≠ 0) (hblk : w.t.mxlog_thread.block_thread = 0)
    (hs : stream_holds ops dec w.t.mif_stream (bad :: good :: rest))
    (hbad : ¬ frame_ok dec bad) (hgood : frame_ok dec good)
    (hf : rest.length + 2 < fuel) :
    frame_step ops [] (clear_wakeup w) = step_result.next (after_skip ops (clear_wakeup w) bad) ∧
    buf_reads (after_skip ops (clear_wakeup w) bad).trace = buf_reads w.trace ∧
    handler_calls (after_skip ops (clear_wakeup w) bad).trace = handler_calls w.trace ∧
    ∃ w1, mxlog_thread_pass ops fuel e w = pass_result.looping w1 ∧
      handler_calls w1.trace = handler_calls w.trace ++
        frame_call dec (some h) w.t.channel_handler_data good ::
          (frames_ok dec rest).map (frame_call dec (some h) w.t.channel_handler_data) ∧
      buf_reads w1.trace = buf_reads w.trace ++
        frame_count dec good :: (frames_ok dec rest).map (frame_count dec) ∧
      header_reads w1.trace = header_reads w.trace + (rest.length + 2) + 1 := by
  have hs0 := hs
  obtain ⟨hr, hl, hret, -⟩ := hs0
  refine ⟨frame_step_skip ops dec (clear_wakeup w) bad hd hr hl hret hbad, ?_, ?_, ?_⟩
  · simp [after_skip, clear_wakeup, buf_reads_append, buf_reads]
  · simp [after_skip, clear_wakeup, handler_calls_append, handler_calls]
  · obtain ⟨w1, hp, c1, c2, c3⟩ :=
      pass_frames ops dec h fuel e w (bad :: good :: rest) hd hc hstop hasleep hq hwake hblk hs
        (by simpa using hf)
    refine ⟨w1, hp, ?_, ?_, ?_⟩
    · rw [c1]; simp [frames_ok, hbad, hgood]
    · rw [c2]; simp [frames_ok, hbad, hgood]
    · rw [c3]; simp

/-- C5 at the scenario: a header announcing 100000 bytes, then the digits frame. -/
theorem C5_bad_count_skipped_next_delivered_witness :
    ¬ frame_ok sample_decoder frame_huge ∧
    ∃ w1, mxlog_thread_pass byte_stream 3 calm
        (sample_worker (frame_huge.bytes ++ frame_digits.bytes)) = pass_result.looping w1 ∧
      handler_calls w1.trace =
        [{ fn := some 7, phase := 1, payload := [48, 49, 50, 51, 52, 53, 54, 55, 56, 57],
           ret_bytes := 10, level := 0, data := 42 }] ∧
      buf_reads w1.trace = [10] ∧ header_reads w1.trace = 3 := by
  have hbad : ¬ frame_ok sample_decoder frame_huge := by
    simp [frame_huge, sample_decoder, le32, frame_ok, frame_count]
  have hgood : frame_ok sample_decoder frame_digits := by
    simp [frame_digits, sample_decoder, le32, frame_ok, frame_count]
  have hs : stream_holds byte_stream sample_decoder
      (sample_worker (frame_huge.bytes ++ frame_digits.bytes)).t.mif_stream
      [frame_huge, frame_digits] := by
    simp [stream_holds, byte_stream, frame.bytes, frame_digits, frame_huge, sample_decoder,
      le32, frame_ok, frame_count, sizeof_uint32_t, sample_worker, sample_transport]
  refine ⟨hbad, ?_⟩
  have key := (C5_bad_count_skipped_next_delivered byte_stream sample_decoder 7 3 calm
    (sample_worker (frame_huge.bytes ++ frame_digits.bytes)) frame_huge frame_digits []
    rfl rfl ⟨rfl, rfl, rfl⟩ rfl (by simp [quiet, calm]) (by decide) rfl hs hbad hgood
    (by decide)).2.2.2
  simpa [sample_worker, sample_transport, handler_calls, buf_reads, header_reads, frame_digits,
    frames_ok, frame_call, sample_decoder, le32, frame_count] using key

/-- C4: the worker ends (`return 0`) without a handler call and without any
further stream read (1) when it wakes and no header decoder is registered: it
reads nothing at all; (2) when, in an iteration of the drain loop, after a header
has been read, no header decoder is registered any more or the registered
decoder returns non-zero for that header: the loop, from whatever state that
iteration starts in, ends by `return 0` with the header read and `kfree` as its
only events, whatever the stream holds behind the header; (3) in particular
the pass of a woken worker whose first header is such a header returns with no
handler call, no payload read and one header read. -/
theorem C4_bad_header_ends_worker {σ : Type} (ops : mif_stream_ops σ) :
    (∀ (fuel : Nat) (e : pass_env) (w : worker σ),
      e.stop_head = false → e.asleep = [] → e.stop_after = false →
      wait_event_interruptible w.t.mxlog_thread e.stop_wait e.signal = some 0 →
      w.t.header_handler_fn = none →
      mxlog_thread_pass ops fuel e w =
        pass_result.returned
          { clear_wakeup w with trace := w.trace ++ [Event.kfree] }) ∧
    (∀ (fuel : Nat) (sched : List (List env_action)) (w : worker σ),
      (ops.read (apply_envs (sched.headD []) w).t.mif_stream sizeof_uint32_t).1 ≠ [] →
      ((apply_envs (sched.headD []) w).t.header_handler_fn = none ∨
        ∃ dec, (apply_envs (sched.headD []) w).t.header_handler_fn = some dec ∧
          (dec (le32 (next_header ops (apply_envs (sched.headD []) w)))).ret ≠ 0) →
      drain ops (fuel + 1) sched w =
        drain_result.returned (after_bail ops (apply_envs (sched.headD []) w))) ∧
    (∀ (fuel : Nat) (e : pass_env) (w : worker σ) (d0 : mxlog_header_handler),
      e.stop_head = false → e.asleep = [] → e.stop_after = false →
      wait_event_interruptible w.t.mxlog_thread e.stop_wait e.signal = some 0 →
      w.t.header_handler_fn = some d0 →
      (ops.read (apply_envs (e.sched.headD []) (clear_wakeup w)).t.mif_stream
        sizeof_uint32_t).1 ≠ [] →
      ((apply_envs (e.sched.headD []) (clear_wakeup w)).t.header_handler_fn = none ∨
        ∃ dec, (apply_envs (e.sched.headD []) (clear_wakeup w)).t.header_handler_fn = some dec ∧
          (dec (le32 (next_header ops (apply_envs (e.sched.headD []) (clear_wakeup w))))).ret
            ≠ 0) →
      mxlog_thread_pass ops (fuel + 1) e w =
          pass_result.returned (after_bail ops (apply_envs (e.sched.headD []) (clear_wakeup w))) ∧
        handler_calls (after_bail ops (apply_envs (e.sched.headD []) (clear_wakeup w))).trace
          = handler_calls (apply_envs (e.sched.headD []) (clear_wakeup w)).trace ∧
        buf_reads (after_bail ops (apply_envs (e.sched.headD []) (clear_wakeup w))).trace
          = buf_reads (apply_envs (e.sched.headD []) (clear_wakeup w)).trace ∧
        header_reads (after_bail ops (apply_envs (e.sched.headD []) (clear_wakeup w))).trace
          = header_reads (apply_envs (e.sched.headD []) (clear_wakeup w)).trace + 1) := by
  have hdrain : ∀ (fuel : Nat) (sched : List (List env_action)) (w : worker σ),
      (ops.read (apply_envs (sched.headD []) w).t.mif_stream sizeof_uint32_t).1 ≠ [] →
      ((apply_envs (sched.headD []) w).t.header_handler_fn = none ∨
        ∃ dec, (apply_envs (sched.headD []) w).t.header_handler_fn = some dec ∧
          (dec (le32 (next_header ops (apply_envs (sched.headD []) w)))).ret ≠ 0) →
      drain ops (fuel + 1) sched w =
        drain_result.returned (after_bail ops (apply_envs (sched.headD []) w)) := by
    intro fuel sched w hr hbad
    have hlen : (ops.read (apply_envs (sched.headD []) w).t.mif_stream
        sizeof_uint32_t).1.length ≠ 0 := by simpa using hr
    have hstep : frame_step ops (sched.headD []) w =
        step_result.returned (after_bail ops (apply_envs (sched.headD []) w)) := by
      rcases hbad with hnone | ⟨dec, hsome, hret⟩
      · simp only [frame_step, hlen, hnone, after_bail, next_header]
        simp
      · unfold next_header at hret
        simp only [frame_step, hlen, hsome, after_bail, next_header, hret, ne_eq,
          not_false_eq_true, if_true, if_false]
        simp
    simp only [drain, hstep]
  refine ⟨?_, hdrain, ?_⟩
  · intro fuel e w h1 h2 h3 hwait hd
    have hd1 : (clear_wakeup w).t.header_handler_fn = none := hd
    unfold mxlog_thread_pass
    simp only [h1, h2, h3, apply_envs, List.foldl_nil, hwait, hd1]
    simp [clear_wakeup]
  · intro fuel e w d0 h1 h2 h3 hwait hd hr hbad
    have hd1 : (clear_wakeup w).t.header_handler_fn = some d0 := hd
    refine ⟨?_, ?_, ?_, ?_⟩
    · unfold mxlog_thread_pass
      simp only [h1, h2, h3, apply_envs_nil, hwait, hd1,
        hdrain fuel e.sched (clear_wakeup w) hr hbad]
      simp
    · simp [after_bail, handler_calls_append, handler_calls]
    · simp [after_bail, buf_reads_append, buf_reads]
    · simp [after_bail, header_reads_append, header_reads]

/-- C4 at a bad-sync header followed by the valid digits frame: the worker returns
after the header read and the frame stays unread in the stream. -/
theorem C4_bad_header_ends_worker_witness :
    (sample_decoder (le32 [9, 0, 0, 0])).ret ≠ 0 ∧
    ∃ w1, mxlog_thread_pass byte_stream 1 calm
        (sample_worker ([9, 0, 0, 0] ++ frame_digits.bytes)) = pass_result.returned w1 ∧
      w1.trace = [Event.mif_stream_read read_dst.header 4 4, Event.kfree] ∧
      w1.t.mif_stream = frame_digits.bytes := by
  refine ⟨by decide, ?_⟩
  have key := (C4_bad_header_ends_worker byte_stream).2.2 0 calm
    (sample_worker ([9, 0, 0, 0] ++ frame_digits.bytes)) sample_decoder rfl rfl rfl
    (by decide) rfl
    (by simp [calm, apply_envs, clear_wakeup, sample_worker, sample_transport, byte_stream,
          sizeof_uint32_t])
    (Or.inr ⟨sample_decoder, rfl, by
      simp [calm, apply_envs, clear_wakeup, sample_worker, sample_transport, byte_stream,
        sizeof_uint32_t, next_header, mem_store, le32, sample_decoder]⟩)
  refine ⟨_, key.1, ?_, ?_⟩
  · simp [after_bail, calm, apply_envs, clear_wakeup, sample_worker, sample_transport,
      byte_stream, sizeof_uint32_t]
  · simp [after_bail, calm, apply_envs, clear_wakeup, sample_worker, sample_transport,
      byte_stream, sizeof_uint32_t]

/-- C8: in every transport state `input_irq_handler` clears the hardware
interrupt `irq` exactly once, and when the fault flag is set
(`block_thread = 1`) that is all it does: the transport, `wakeup_flag`
included, is unchanged and `wake_up_interruptible` is not called. -/
theorem C8_irq_clears_once_and_blocked_is_silent {σ : Type} :
    (∀ (irq : Int) (t : mxlog_transport σ), irq_clears (input_irq_handler irq t).2 = [irq]) ∧
    (∀ (irq : Int) (t : mxlog_transport σ), t.mxlog_thread.block_thread = 1 →
      input_irq_handler irq t = (t, [Event.irq_bit_clear irq])) := by
  constructor
  · intro irq t
    unfold input_irq_handler
    split_ifs <;> simp [irq_clears]
  · intro irq t hb
    unfold input_irq_handler
    split_ifs <;> rfl

/-- C8 at a transport with a live worker, a pending wakeup and the fault flag set. -/
theorem C8_irq_clears_once_and_blocked_is_silent_witness :
    (mxlog_transport_set_error (sample_transport [1, 0, 0, 0])).mxlog_thread.block_thread = 1 ∧
    input_irq_handler 5 (mxlog_transport_set_error (sample_transport [1, 0, 0, 0])) =
      (mxlog_transport_set_error (sample_transport [1, 0, 0, 0]), [Event.irq_bit_clear 5]) :=
  ⟨rfl, C8_irq_clears_once_and_blocked_is_silent.2 5
    (mxlog_transport_set_error (sample_transport [1, 0, 0, 0])) rfl⟩

/-! ### The scratch buffer -/

theorem apply_env_buf_tracked {σ : Type} (buf0 : List Nat) (a : env_action) (w : worker σ)
    (hw : buf_tracked buf0 w) : buf_tracked buf0 (apply_env a w) := by
  cases a with
  | register p h d => exact hw
  | set_error => exact hw
  | irq n =>
    have h := (irq_handler_no_reads n w.t).1
    unfold buf_tracked apply_env
    simp only [buf_reads_append, h, List.append_nil]
    exact hw

theorem frame_step_buf_tracked {σ : Type} (ops : mif_stream_ops σ) (buf0 : List Nat)
    (w : worker σ) (hw : buf_tracked buf0 w) :
    buf_tracked buf0 (frame_step ops [] w).worker := by
  obtain ⟨-, -, evs, htr, hcase⟩ := frame_step_shape ops w
  unfold buf_tracked
  rw [htr, buf_reads_append]
  rcases hcase with ⟨h1, -, h3⟩ | ⟨n, s, -, hn, h1, -⟩
  · rw [h1, List.append_nil, h3]
    exact hw
  · rw [h1]
    refine ⟨?_, ?_⟩
    · intro m hm
      rcases List.mem_append.mp hm with hm | hm
      · exact hw.1 m hm
      · have : m = n := by simpa using hm
        rw [this]
        unfold buf_sz
        omega
    · intro h
      simp at h

/-- C9: in every run of `mxlog_thread_function`, whatever the headers, the decoder
and the other contexts do, each payload read asks for fewer bytes than the
scratch buffer holds (`buf_sz = 4096`), and the payload read is the only write
into the buffer: an iteration either leaves the buffer as it was and reads no
payload, or issues one payload read of fewer than `buf_sz` bytes and stores
what it gave at the start of the buffer; a run without payload read ends with
the buffer unchanged. -/
theorem C9_payload_read_fits_buffer {σ : Type} (ops : mif_stream_ops σ) :
    (∀ (fuel : Nat) (envs : List pass_env) (t : mxlog_transport σ) (header0 buf0 : List Nat),
      (∀ n ∈ buf_reads (mxlog_thread_function ops fuel envs t header0 buf0).worker.trace,
        n < buf_sz) ∧
      (buf_reads (mxlog_thread_function ops fuel envs t header0 buf0).worker.trace = [] →
        (mxlog_thread_function ops fuel envs t header0 buf0).worker.buf = buf0)) ∧
    (∀ (w : worker σ), ∃ evs, (frame_step ops [] w).worker.trace = w.trace ++ evs ∧
      ((buf_reads evs = [] ∧ (frame_step ops [] w).worker.buf = w.buf) ∨
       (∃ n s, n < buf_sz ∧ buf_reads evs = [n] ∧
          (frame_step ops [] w).worker.buf = mem_store w.buf (ops.read s n).1))) ∧
    (∀ (a : env_action) (w : worker σ), (apply_env a w).buf = w.buf) ∧
    buf_sz = 4096 := by
  refine ⟨?_, ?_, ?_, rfl⟩
  · intro fuel envs t header0 buf0
    unfold mxlog_thread_function
    exact thread_loop_inv ops (buf_tracked buf0) (fun _ => True)
      (fun a w _ hw => apply_env_buf_tracked buf0 a w hw)
      (frame_step_buf_tracked ops buf0)
      (fun w hw => hw) (fun w hw => by
        unfold buf_tracked thread_exit
        simp only [buf_reads_append, buf_reads, List.append_nil]
        exact hw)
      (fun w hw => hw) (fun w hw => by
        unfold buf_tracked
        simp only [buf_reads_append, buf_reads, List.append_nil]
        exact hw)
      fuel envs _ (fun e _ => ⟨fun _ _ => trivial, fun _ _ _ _ => trivial⟩)
      ⟨by simp [buf_reads], fun _ => rfl⟩
  · intro w
    obtain ⟨-, -, evs, htr, hcase⟩ := frame_step_shape ops w
    refine ⟨evs, htr, ?_⟩
    rcases hcase with ⟨h1, -, h3⟩ | ⟨n, s, -, hn, h1, h2, -⟩
    · exact Or.inl ⟨h1, h3⟩
    · exact Or.inr ⟨n, s, by unfold buf_sz; omega, h1, h2⟩
  · intro a w
    cases a <;> rfl

/-- C9 at the scenario stream: the one payload read asks for 10 bytes. -/
theorem C9_payload_read_fits_buffer_witness :
    (buf_reads (mxlog_thread_function byte_stream 3 [wake_with [env_action.irq 3]]
        (sample_transport frame_digits.bytes) [0, 0, 0, 0]
        (List.replicate buf_sz 0)).worker.trace).all (fun n => decide (n < buf_sz)) = true :=
  List.all_eq_true.mpr (fun n hn => decide_eq_true
    (((C9_payload_read_fits_buffer byte_stream).1 3 [wake_with [env_action.irq 3]]
      (sample_transport frame_digits.bytes) [0, 0, 0, 0] (List.replicate buf_sz 0)).1 n hn))

/-! ### Registration as a unit -/

theorem apply_env_calls_sound {σ : Type} (a : env_action) (w : worker σ)
    (ha : unit_action a) (hw : calls_sound w) : calls_sound (apply_env a w) := by
  cases a with
  | register p h d => exact ⟨hw.1, ha⟩
  | set_error => exact hw
  | irq n =>
    obtain ⟨-, h2, h3, h4⟩ := irq_handler_no_reads n w.t
    unfold calls_sound apply_env
    simp only [handler_calls_append, h2, List.append_nil, h3, h4]
    exact hw

theorem frame_step_calls_sound {σ : Type} (ops : mif_stream_ops σ) (w : worker σ)
    (hw : calls_sound w) : calls_sound (frame_step ops [] w).worker := by
  obtain ⟨hd, hc, evs, htr, hcase⟩ := frame_step_shape ops w
  unfold calls_sound
  rw [htr, handler_calls_append, hd, hc]
  refine ⟨?_, hw.2⟩
  intro c hcm
  rcases List.mem_append.mp hcm with hm | hm
  · exact hw.1 c hm
  · rcases hcase with ⟨-, h2, -⟩ | ⟨n, s, -, -, -, -, hdec, hall⟩
    · rw [h2] at hm
      simp at hm
    · rw [hall c hm]
      exact hw.2 hdec

/-- C10, amended: when decoder and handler are always registered as a unit (the
transport the worker starts on, and every registration call during its run,
has a handler whenever it has a decoder; clearing both is allowed), then in
every run of `mxlog_thread_function`, whatever the stream holds, every call of
the payload handler goes through a registered, non-`NULL` `channel_handler_fn`. -/
theorem C10_unit_registration_no_null_call {σ : Type} (ops : mif_stream_ops σ) (fuel : Nat)
    (envs : List pass_env) (t : mxlog_transport σ) (header0 buf0 : List Nat)
    (ht : as_unit t.header_handler_fn t.channel_handler_fn)
    (henvs : ∀ e ∈ envs, e.all unit_action) :
    ∀ c ∈ handler_calls (mxlog_thread_function ops fuel envs t header0 buf0).worker.trace,
      c.fn ≠ none := by
  unfold mxlog_thread_function
  exact (thread_loop_inv ops calls_sound unit_action
    (fun a w ha hw => apply_env_calls_sound a w ha hw)
    (frame_step_calls_sound ops)
    (fun w hw => hw) (fun w hw => by
      unfold calls_sound thread_exit
      simp only [handler_calls_append, handler_calls, List.append_nil]
      exact hw)
    (fun w hw => hw) (fun w hw => by
      unfold calls_sound
      simp only [handler_calls_append, handler_calls, List.append_nil]
      exact hw)
    fuel envs _ henvs ⟨by simp [handler_calls], ht⟩).1

/-- C10, amended, on a transport fresh from `mxlog_transport_init` with decoder and
handler registered together while the worker sleeps. -/
theorem C10_unit_registration_no_null_call_witness :
    as_unit (mxlog_transport_init byte_stream (sample_init frame_digits.bytes 1) 0).2.1.header_handler_fn
      (mxlog_transport_init byte_stream (sample_init frame_digits.bytes 1) 0).2.1.channel_handler_fn ∧
    (handler_calls (mxlog_thread_function byte_stream 3
        [wake_with [env_action.register (some sample_decoder) (some 7) 42, env_action.irq 3]]
        (mxlog_transport_init byte_stream (sample_init frame_digits.bytes 1) 0).2.1
        [0, 0, 0, 0] (List.replicate buf_sz 0)).worker.trace).all
      (fun c => c.fn.isSome) = true :=
  ⟨fun h => absurd rfl h,
   List.all_eq_true.mpr (fun c hc => Option.ne_none_iff_isSome.mp
    (C10_unit_registration_no_null_call byte_stream 3
      [wake_with [env_action.register (some sample_decoder) (some 7) 42, env_action.irq 3]]
      (mxlog_transport_init byte_stream (sample_init frame_digits.bytes 1) 0).2.1
      [0, 0, 0, 0] (List.replicate buf_sz 0)
      (fun h => absurd rfl h)
      (by simp [pass_env.all, wake_with, unit_action, as_unit]) c hc))⟩

/-- C10 as stated fails: after `mxlog_transport_init`, a registration of a decoder
with a `NULL` handler, an interrupt and the digits frame in the stream, the
worker calls through the `NULL` `channel_handler_fn`. -/
theorem C10_counterexample_null_handler_called :
    handler_calls (mxlog_thread_function byte_stream 3
        [wake_with [env_action.register (some sample_decoder) none 0, env_action.irq 3]]
        (mxlog_transport_init byte_stream (sample_init frame_digits.bytes 1) 0).2.1
        [0, 0, 0, 0] (List.replicate buf_sz 0)).worker.trace
      = [{ fn := none, phase := 1, payload := [48, 49, 50, 51, 52, 53, 54, 55, 56, 57],
           ret_bytes := 10, level := 0, data := 0 }] := by
  decide

/-! ### Where the code departs from the claims -/

/-- With the fault flag set, no stop request and no signal, the worker stays asleep however many interrupts are raised and whatever
the stream holds: it reads nothing and calls no handler. -/
theorem fault_keeps_worker_asleep {σ : Type} (ops : mif_stream_ops σ) (fuel : Nat)
    (irqs : List Int) (sched : List (List env_action)) (w : worker σ)
    (hb : w.t.mxlog_thread.block_thread = 1) :
    (mxlog_thread_pass ops fuel
        { stop_head := false, asleep := irqs.map env_action.irq, stop_wait := false,
          signal := false, stop_after := false, sched := sched } w).is_waiting = true ∧
    handler_calls (mxlog_thread_pass ops fuel
        { stop_head := false, asleep := irqs.map env_action.irq, stop_wait := false,
          signal := false, stop_after := false, sched := sched } w).worker.trace
      = handler_calls w.trace ∧
    (mxlog_thread_pass ops fuel
        { stop_head := false, asleep := irqs.map env_action.irq, stop_wait := false,
          signal := false, stop_after := false, sched := sched } w).worker.t.mif_stream
      = w.t.mif_stream := by
  have key : ∀ (l : List Int) (x : worker σ), x.t.mxlog_thread.block_thread = 1 →
      (apply_envs (l.map env_action.irq) x).t.mxlog_thread.block_thread = 1 ∧
      handler_calls (apply_envs (l.map env_action.irq) x).trace = handler_calls x.trace ∧
      (apply_envs (l.map env_action.irq) x).t.mif_stream = x.t.mif_stream := by
    intro l
    induction l with
    | nil => intro x hx; exact ⟨hx, rfl, rfl⟩
    | cons n l ih =>
      intro x hx
      have h1 : input_irq_handler n x.t = (x.t, [Event.irq_bit_clear n]) := by
        unfold input_irq_handler
        split_ifs <;> rfl
      have hstep : apply_env (env_action.irq n) x =
          { x with trace := x.trace ++ [Event.irq_bit_clear n] } := by
        simp [apply_env, h1]
      obtain ⟨i1, i2, i3⟩ := ih { x with trace := x.trace ++ [Event.irq_bit_clear n] } hx
      have hunf : apply_envs ((n :: l).map env_action.irq) x =
          apply_envs (l.map env_action.irq) (apply_env (env_action.irq n) x) := rfl
      rw [hunf, hstep]
      refine ⟨i1, ?_, i3⟩
      rw [i2]
      simp [handler_calls_append, handler_calls]
  obtain ⟨k1, k2, k3⟩ := key irqs w hb
  have hwait : wait_event_interruptible (apply_envs (irqs.map env_action.irq) w).t.mxlog_thread
      false false = none := by
    simp [wait_event_interruptible, k1]
  unfold mxlog_thread_pass
  simp only [hwait, Bool.false_eq_true, if_false]
  exact ⟨rfl, k2, k3⟩

/-- C3, the failing input: the worker is draining a stream that holds the digits
frame and a three-byte frame; `mxlog_transport_set_error` is called after the
first frame has been delivered; the drain loop does not look at the fault flag
and delivers the second frame too, with `block_thread = 1`. -/
theorem C3_running_pass_delivers_after_fault :
    handler_calls (mxlog_thread_pass byte_stream 3
        { calm with sched := [[], [env_action.set_error]] }
        (sample_worker (frame_digits.bytes ++ frame_three.bytes))).worker.trace
      = [{ fn := some 7, phase := 1, payload := [48, 49, 50, 51, 52, 53, 54, 55, 56, 57],
           ret_bytes := 10, level := 0, data := 42 },
         { fn := some 7, phase := 1, payload := [1, 2, 3], ret_bytes := 3, level := 4,
           data := 42 }] ∧
    (mxlog_thread_pass byte_stream 3
        { calm with sched := [[], [env_action.set_error]] }
        (sample_worker (frame_digits.bytes ++ frame_three.bytes))).worker.t.mxlog_thread.block_thread
      = 1 ∧
    handler_calls (mxlog_thread_pass byte_stream 3
        { calm with sched := [[env_action.set_error]] }
        (sample_worker (frame_digits.bytes ++ frame_three.bytes))).worker.trace
      = [{ fn := some 7, phase := 1, payload := [48, 49, 50, 51, 52, 53, 54, 55, 56, 57],
           ret_bytes := 10, level := 0, data := 42 },
         { fn := some 7, phase := 1, payload := [1, 2, 3], ret_bytes := 3, level := 4,
           data := 42 }] := by
  decide

/-- C6, the failing input: the worker returns on a bad-sync header without
clearing `th->task`; the next interrupt finds `th->task` non-`NULL`, does not
take the worker-not-running path, sets `wakeup_flag` from `0` to `1` and calls
`wake_up_interruptible`. -/
theorem C6_notify_after_bad_header_sets_wakeup :
    (mxlog_thread_pass byte_stream 1 calm (sample_worker [9, 0, 0, 0])).is_returned = true ∧
    (mxlog_thread_pass byte_stream 1 calm
        (sample_worker [9, 0, 0, 0])).worker.t.mxlog_thread.task = task_ptr.task 1 ∧
    (mxlog_thread_pass byte_stream 1 calm
        (sample_worker [9, 0, 0, 0])).worker.t.mxlog_thread.wakeup_flag = 0 ∧
    (input_irq_handler 5 (mxlog_thread_pass byte_stream 1 calm
        (sample_worker [9, 0, 0, 0])).worker.t).1.mxlog_thread.wakeup_flag = 1 ∧
    (input_irq_handler 5 (mxlog_thread_pass byte_stream 1 calm
        (sample_worker [9, 0, 0, 0])).worker.t).2
      = [Event.irq_bit_clear 5, Event.wake_up_interruptible] := by
  decide

/-- C7, the failing input: the completion wait of `mxlog_thread_start` times out;
`mxlog_transport_init` returns `-ETIMEDOUT` and releases the stream, but
`th->task` still holds the task `kthread_run` created: the worker is neither
stopped nor forgotten. -/
theorem C7_start_timeout_keeps_task :
    (mxlog_transport_init byte_stream (sample_init [] 0) 0).1 = -ETIMEDOUT ∧
    (mxlog_transport_init byte_stream (sample_init [] 0) 0).2.2 = [Event.mif_stream_release] ∧
    (mxlog_transport_init byte_stream (sample_init [] 0) 0).2.1.mxlog_thread.task
      = task_ptr.task 1 ∧
    (mxlog_transport_init byte_stream (sample_init [] 0) 0).2.1.mxlog_thread.task
      ≠ task_ptr.NULL := by
  decide

end MxlogTransport
